import Mathlib

/-!
Verification of the Deribit market-data downloader's core components,
shallowly embedded from the Python sources under `src/scripts/`.

Conventions of the embedding:
* Machine clock readings (`datetime.now`) become explicit `now` parameters.
* Instants are modelled as seconds on a linear time axis anchored at
  1600-01-01 00:00:00 UTC (an affine shift of the Unix epoch; every year
  appearing in instrument names is ≥ 1969, so all values stay in `Nat`).
* Nullable SQL/Python values become `Option` values; fallible operations
  return `Option`/`Except` results.
* I/O outcomes (database write attempts, WebSocket subscribe calls) are
  supplied as explicit outcome functions, so the control flow around them
  can be modelled purely.
* ASCII inputs are assumed throughout: Python's `\d` is modelled as the
  ASCII digit test (instrument names are ASCII).
-/

namespace DataDownloader

/-! ### Generic chunking

Both `ws_multi_conn_orchestrator.partition_instruments` and the tick
writers' `write_quotes`/`write_trades`/`write_depth_snapshots` use the
Python idiom `for i in range(0, len(xs), k): xs[i:i+k]`.  `chunkAux` uses
the list length as structural fuel; for `k ≥ 1` the fuel never runs out. -/

def chunkAux (k : Nat) : Nat → List α → List (List α)
  | 0, _ => []
  | _, [] => []
  | fuel + 1, l => l.take k :: chunkAux k fuel (l.drop k)

def chunkList (k : Nat) (l : List α) : List (List α) :=
  chunkAux k l.length l

/-! ### Partitioner (`ws_multi_conn_orchestrator.partition_instruments`)

The Python function receives a list of instrument dicts, extracts
`inst['instrument_name']`, and slices the name list into groups of
`max_per_partition` (default 250). -/

structure InstInfo where
  instrument_name : String
  deriving DecidableEq, Repr

def partition_instruments (instruments : List InstInfo)
    (max_per_partition : Nat := 250) : List (List String) :=
  chunkList max_per_partition (instruments.map (·.instrument_name))

/-! ### Expiry oracle (`instrument_expiry_checker.py`)

`parse_expiry_from_instrument` applies
`re.match(r'[A-Z]+-(\d{1,2}[A-Z]{3}\d{2})-', name)` and feeds the captured
group to `strptime('%d%b%y')`, then sets the time to 08:00 UTC.  The regex
is deterministic (no observable backtracking: each quantifier is followed
by a character class disjoint from it), so it is modelled as a single
left-to-right scan.  `strptime` validates the month abbreviation, the day
against the month length (leap years included), and maps two-digit years
69–99 to 1969–1999 and 00–68 to 2000–2068. -/

def isUpperAZ (c : Char) : Bool := 'A' ≤ c && c ≤ 'Z'

def isLeapYear (y : Nat) : Bool := (y % 4 == 0 && y % 100 != 0) || y % 400 == 0

def daysInMonth (y : Nat) : Nat → Nat
  | 1 => 31
  | 2 => if isLeapYear y then 29 else 28
  | 3 => 31
  | 4 => 30
  | 5 => 31
  | 6 => 30
  | 7 => 31
  | 8 => 31
  | 9 => 30
  | 10 => 31
  | 11 => 30
  | 12 => 31
  | _ => 0

/-- Number of leap years `L` with `1 ≤ L ≤ n` (proleptic Gregorian). -/
def leapYearsUpto (n : Nat) : Nat := n / 4 - n / 100 + n / 400

/-- Days from 1600-01-01 to `y`-01-01 (for `y ≥ 1600`). -/
def daysBeforeYear (y : Nat) : Nat :=
  365 * (y - 1600) + (leapYearsUpto (y - 1) - leapYearsUpto 1599)

/-- Days in year `y` strictly before month `m`. -/
def daysBeforeMonth (y m : Nat) : Nat :=
  ((List.range (m - 1)).map (fun k => daysInMonth y (k + 1))).sum

/-- Days from 1600-01-01 to the civil date `y-m-d`. -/
def civilDays (y m d : Nat) : Nat :=
  daysBeforeYear y + daysBeforeMonth y m + (d - 1)

/-- Seconds from 1600-01-01T00:00:00Z to the given UTC datetime. -/
def toEpoch (y m d h mi s : Nat) : Nat :=
  civilDays y m d * 86400 + h * 3600 + mi * 60 + s

/-- `strptime`'s `%b` month-abbreviation table (uppercase reaches it here,
since the regex capture only passes `[A-Z]{3}`). -/
def monthNum (mon : List Char) : Option Nat :=
  if mon = ['J', 'A', 'N'] then some 1
  else if mon = ['F', 'E', 'B'] then some 2
  else if mon = ['M', 'A', 'R'] then some 3
  else if mon = ['A', 'P', 'R'] then some 4
  else if mon = ['M', 'A', 'Y'] then some 5
  else if mon = ['J', 'U', 'N'] then some 6
  else if mon = ['J', 'U', 'L'] then some 7
  else if mon = ['A', 'U', 'G'] then some 8
  else if mon = ['S', 'E', 'P'] then some 9
  else if mon = ['O', 'C', 'T'] then some 10
  else if mon = ['N', 'O', 'V'] then some 11
  else if mon = ['D', 'E', 'C'] then some 12
  else none

def digitsVal (l : List Char) : Nat :=
  l.foldl (fun a c => a * 10 + (c.toNat - 48)) 0

/-- `%y`: 00–68 ↦ 2000–2068, 69–99 ↦ 1969–1999. -/
def yearOfYY (yy : Nat) : Nat := if yy ≤ 68 then 2000 + yy else 1900 + yy

/-- `strptime('%d%b%y')` then `.replace(hour=8, tzinfo=utc)`: builds the
settlement instant once day/month/year digits are isolated, validating the
day against the month length. -/
def mkExpiry (day m yy : Nat) : Option Nat :=
  let year := yearOfYY yy
  if 1 ≤ day && day ≤ daysInMonth year m then some (toEpoch year m day 8 0 0)
  else none

/-- The `[A-Z]{3}\d{2}-` tail of the regex plus `strptime`'s month/day
validation, applied to `r2`, the characters following the day digits
`ds`. -/
def parseMonYY (ds r2 : List Char) : Option Nat :=
  let mon := r2.take 3
  let r3 := r2.drop 3
  let ys := r3.take 2
  if mon.length = 3 && mon.all isUpperAZ && ys.length = 2
      && ys.all Char.isDigit then
    match r3.drop 2 with
    | '-' :: _ =>
      match monthNum mon with
      | some m => mkExpiry (digitsVal ds) m (digitsVal ys)
      | none => none
    | _ => none
  else none

/-- The `\d{1,2}` day digits of the regex, applied to the characters after
the first `-` (1–2 digits; three or more leading digits can never match,
as the following `[A-Z]{3}` excludes a digit at either backtrack). -/
def parseAfterDash (afterDash : List Char) : Option Nat :=
  let ds := afterDash.takeWhile Char.isDigit
  if ds.length = 0 || 2 < ds.length then none
  else parseMonYY ds (afterDash.drop ds.length)

/-- The regex + `strptime` pipeline of `parse_expiry_from_instrument`,
over the character list of the name: `[A-Z]+` then `-` then the staged
tail above.  Returns the settlement instant (08:00 UTC on the named date)
in epoch seconds, or `none` on any parse failure. -/
def parseExpiryChars (cs : List Char) : Option Nat :=
  let ccy := cs.takeWhile isUpperAZ
  if ccy.isEmpty then none
  else
    match cs.drop ccy.length with
    | '-' :: afterDash => parseAfterDash afterDash
    | _ => none

def parse_expiry_from_instrument (s : String) : Option Nat :=
  parseExpiryChars s.data

/-- `is_instrument_expired`; the code reads `datetime.now(timezone.utc)`,
modelled by the explicit `now` parameter.  Returns
`now ≥ expiry + buffer_minutes` and `false` when parsing fails. -/
def is_instrument_expired (s : String) (buffer_minutes : Nat) (now : Nat) :
    Bool :=
  match parse_expiry_from_instrument s with
  | none => false
  | some expiry => decide (expiry + buffer_minutes * 60 ≤ now)

/-! ### Tick buffer (`tick_buffer.py`)

The three queues are `collections.deque(maxlen=…)`: appending to a full
deque silently discards the item at the opposite end.  `dequeAppend`
is that semantics: keep the last `maxlen` items. -/

def dequeAppend (maxlen : Nat) (q : List α) (x : α) : List α :=
  let q2 := q ++ [x]
  q2.drop (q2.length - maxlen)

structure BufferStats where
  ticks_received : Nat := 0
  ticks_written : Nat := 0
  flushes_triggered : Nat := 0
  deriving DecidableEq, Repr

def BufferStats.record_flush (s : BufferStats) (numTicks : Nat) :
    BufferStats :=
  { s with
    ticks_written := s.ticks_written + numTicks
    flushes_triggered := s.flushes_triggered + 1 }

structure TickBuffer (α : Type) where
  max_quotes : Nat := 200000
  max_trades : Nat := 100000
  max_depth : Nat := 50000
  quotes : List α := []
  trades : List α := []
  depth : List α := []
  quote_stats : BufferStats := {}
  trade_stats : BufferStats := {}
  depth_stats : BufferStats := {}
  deriving DecidableEq, Repr

def TickBuffer.add_quote (b : TickBuffer α) (q : α) : TickBuffer α :=
  { b with
    quotes := dequeAppend b.max_quotes b.quotes q
    quote_stats :=
      { b.quote_stats with
        ticks_received := b.quote_stats.ticks_received + 1 } }

def TickBuffer.add_trade (b : TickBuffer α) (t : α) : TickBuffer α :=
  { b with
    trades := dequeAppend b.max_trades b.trades t
    trade_stats :=
      { b.trade_stats with
        ticks_received := b.trade_stats.ticks_received + 1 } }

def TickBuffer.add_depth (b : TickBuffer α) (d : α) : TickBuffer α :=
  { b with
    depth := dequeAppend b.max_depth b.depth d
    depth_stats :=
      { b.depth_stats with
        ticks_received := b.depth_stats.ticks_received + 1 } }

/-- `get_and_clear`: returns the three lists and empties the buffers,
recording flush statistics. -/
def TickBuffer.get_and_clear (b : TickBuffer α) :
    (List α × List α × List α) × TickBuffer α :=
  ((b.quotes, b.trades, b.depth),
    { b with
      quotes := []
      trades := []
      depth := []
      quote_stats := b.quote_stats.record_flush b.quotes.length
      trade_stats := b.trade_stats.record_flush b.trades.length
      depth_stats := b.depth_stats.record_flush b.depth.length })

/-- `clear_all`: drops everything without recording write stats
(emergency shutdown). -/
def TickBuffer.clear_all (b : TickBuffer α) : TickBuffer α :=
  { b with quotes := [], trades := [], depth := [] }

/-- One producer call on the buffer (`add_quote` / `add_trade` /
`add_depth`), for stating properties of arbitrary call sequences. -/
inductive BufferOp (α : Type) where
  | quote (x : α)
  | trade (x : α)
  | depth (x : α)
  deriving DecidableEq, Repr

def TickBuffer.applyOp (b : TickBuffer α) : BufferOp α → TickBuffer α
  | .quote x => b.add_quote x
  | .trade x => b.add_trade x
  | .depth x => b.add_depth x

def opsQuotes (ops : List (BufferOp α)) : List α :=
  ops.filterMap fun
    | .quote x => some x
    | _ => none

def opsTrades (ops : List (BufferOp α)) : List α :=
  ops.filterMap fun
    | .trade x => some x
    | _ => none

def opsDepth (ops : List (BufferOp α)) : List α :=
  ops.filterMap fun
    | .depth x => some x
    | _ => none

/-! ### Batch writer retry loop (`tick_writer.py`, `tick_writer_multi.py`)

`_write_quote_batch` / `_write_trade_batch` / `_write_depth_batch` all run

    for attempt in range(max_retries):        # max_retries = 3
        try: …; return len(batch)
        except:
            if attempt < max_retries - 1:
                delay = 2 ** attempt; sleep(delay)
            else: raise

The database outcome of each attempt is supplied as `ok : Nat → Bool`.
`writeBatchLoop` iterates over the `range(max_retries)` list; the second
component collects the backoff sleeps actually performed, in seconds. -/

inductive BatchResult where
  | written (rows : Nat)
  | raised
  deriving DecidableEq, Repr

def writeBatchLoop (ok : Nat → Bool) (rows : Nat) :
    List Nat → BatchResult × List Nat
  | [] => (.written 0, [])
  | attempt :: restAttempts =>
    if ok attempt then (.written rows, [])
    else if restAttempts.isEmpty then (.raised, [])
    else
      let r := writeBatchLoop ok rows restAttempts
      (r.1, 2 ^ attempt :: r.2)

def write_quote_batch (ok : Nat → Bool) (rows : Nat)
    (max_retries : Nat := 3) : BatchResult × List Nat :=
  writeBatchLoop ok rows (List.range max_retries)

/-- `write_quotes`: returns 0 on an empty input, otherwise chunks into
sub-batches of `batch_size = 10000` and writes each via
`_write_quote_batch`; an exception from a sub-batch aborts the loop and
propagates to the caller.  `ok i a` tells whether attempt `a` of
sub-batch `i` succeeds. -/
def writeQuotesLoop (ok : Nat → Nat → Bool) : Nat → List (List α) →
    Except Unit Nat
  | _, [] => .ok 0
  | i, b :: bs =>
    match write_quote_batch (ok i) b.length with
    | (.written n, _) =>
      match writeQuotesLoop ok (i + 1) bs with
      | .ok total => .ok (n + total)
      | .error e => .error e
    | (.raised, _) => .error ()

def write_quotes (ok : Nat → Nat → Bool) (quotes : List α)
    (batch_size : Nat := 10000) : Except Unit Nat :=
  if quotes.isEmpty then .ok 0
  else writeQuotesLoop ok 0 (chunkList batch_size quotes)

/-! ### Quote upsert semantics (`_write_quote_batch` SQL)

A quote row carries the 17 updatable columns of the `…_option_quotes`
statement; the key is `(timestamp, instrument)`.  `executemany` applies
the upsert row by row, so a batch is a left fold.
`MultiCurrencyTickWriter` uses `ON CONFLICT (timestamp, instrument)
DO UPDATE SET col = COALESCE(EXCLUDED.col, table.col)` for every
updatable column; `TickWriter` (the ETH-only lineage) uses
`ON CONFLICT (timestamp, instrument) DO NOTHING`. -/

structure QuoteKey where
  timestamp : Nat
  instrument : String
  deriving DecidableEq, Repr

structure QuoteVals where
  best_bid_price : Option ℚ := none
  best_bid_amount : Option ℚ := none
  best_ask_price : Option ℚ := none
  best_ask_amount : Option ℚ := none
  underlying_price : Option ℚ := none
  mark_price : Option ℚ := none
  delta : Option ℚ := none
  gamma : Option ℚ := none
  theta : Option ℚ := none
  vega : Option ℚ := none
  rho : Option ℚ := none
  implied_volatility : Option ℚ := none
  bid_iv : Option ℚ := none
  ask_iv : Option ℚ := none
  mark_iv : Option ℚ := none
  open_interest : Option ℚ := none
  last_price : Option ℚ := none
  deriving DecidableEq, Repr

/-- SQL `COALESCE(incoming, existing)`. -/
def coalesce (incoming existing : Option ℚ) : Option ℚ :=
  match incoming with
  | some v => some v
  | none => existing

/-- The `DO UPDATE SET` list of `MultiCurrencyTickWriter._write_quote_batch`:
every updatable column becomes `COALESCE(EXCLUDED.col, existing.col)`. -/
def coalesceRow (incoming existing : QuoteVals) : QuoteVals where
  best_bid_price := coalesce incoming.best_bid_price existing.best_bid_price
  best_bid_amount := coalesce incoming.best_bid_amount existing.best_bid_amount
  best_ask_price := coalesce incoming.best_ask_price existing.best_ask_price
  best_ask_amount := coalesce incoming.best_ask_amount existing.best_ask_amount
  underlying_price :=
    coalesce incoming.underlying_price existing.underlying_price
  mark_price := coalesce incoming.mark_price existing.mark_price
  delta := coalesce incoming.delta existing.delta
  gamma := coalesce incoming.gamma existing.gamma
  theta := coalesce incoming.theta existing.theta
  vega := coalesce incoming.vega existing.vega
  rho := coalesce incoming.rho existing.rho
  implied_volatility :=
    coalesce incoming.implied_volatility existing.implied_volatility
  bid_iv := coalesce incoming.bid_iv existing.bid_iv
  ask_iv := coalesce incoming.ask_iv existing.ask_iv
  mark_iv := coalesce incoming.mark_iv existing.mark_iv
  open_interest := coalesce incoming.open_interest existing.open_interest
  last_price := coalesce incoming.last_price existing.last_price

/-- The quotes relation: rows keyed by `(timestamp, instrument)`; the
primary key keeps at most one row per key (upserts preserve this). -/
def QuoteTable : Type := List (QuoteKey × QuoteVals)

def lookupQuote : QuoteTable → QuoteKey → Option QuoteVals
  | [], _ => none
  | (k', v') :: rest, k => if k = k' then some v' else lookupQuote rest k

/-- One-row upsert with `DO UPDATE … COALESCE` (multi-currency writer). -/
def upsertQuoteCoalesce : QuoteTable → QuoteKey → QuoteVals → QuoteTable
  | [], k, v => [(k, v)]
  | (k', v') :: rest, k, v =>
    if k = k' then (k', coalesceRow v v') :: rest
    else (k', v') :: upsertQuoteCoalesce rest k v

/-- One-row upsert with `DO NOTHING` (ETH-only `TickWriter`). -/
def upsertQuoteDoNothing : QuoteTable → QuoteKey → QuoteVals → QuoteTable
  | [], k, v => [(k, v)]
  | (k', v') :: rest, k, v =>
    if k = k' then (k', v') :: rest
    else (k', v') :: upsertQuoteDoNothing rest k v

/-- `executemany` of the multi-currency upsert over a batch. -/
def multiWriterQuoteBatch (t : QuoteTable)
    (rows : List (QuoteKey × QuoteVals)) : QuoteTable :=
  rows.foldl (fun acc kv => upsertQuoteCoalesce acc kv.1 kv.2) t

/-- `executemany` of the ETH-only `DO NOTHING` upsert over a batch. -/
def singleWriterQuoteBatch (t : QuoteTable)
    (rows : List (QuoteKey × QuoteVals)) : QuoteTable :=
  rows.foldl (fun acc kv => upsertQuoteDoNothing acc kv.1 kv.2) t

/-! ### WebSocket reconnect backoff (`ws_tick_collector_multi.py`)

`_websocket_loop` sets `reconnect_delay = 1` right after a successful
connect; `_handle_reconnect` sleeps the current delay and then doubles it,
capped at `max_reconnect_delay = 60` (initial value 1). -/

inductive WSEvent where
  | connectOk
  | connectFail
  deriving DecidableEq, Repr

def maxReconnectDelay : Nat := 60

/-- One connect outcome: the new `reconnect_delay` and the sleep performed
(if any). -/
def reconnectStep (delay : Nat) : WSEvent → Nat × List Nat
  | .connectOk => (1, [])
  | .connectFail => (min (delay * 2) maxReconnectDelay, [delay])

/-- A run of connect outcomes starting from delay `delay`; yields the
final delay and all sleeps performed, in order. -/
def reconnectRun (delay : Nat) : List WSEvent → Nat × List Nat
  | [] => (delay, [])
  | e :: es =>
    let s1 := reconnectStep delay e
    let s2 := reconnectRun s1.1 es
    (s2.1, s1.2 ++ s2.2)

/-! ### Control API subscribe handler (`collector_control_api.py`)

`handle_subscribe` walks the requested instruments: an instrument already
in `collector.instruments` is reported `already_subscribed`; otherwise it
is appended to `collector.instruments` first, and only then — if the WS is
connected — `_subscribe_instrument` is attempted, a failure landing in
`failed` (the instrument stays in the owned list).  With the WS down the
instrument is reported `subscribed` (queued for the next connect).
An empty request list returns a 400 error.  The outcome of
`_subscribe_instrument` is supplied as `wsSubscribe`. -/

structure SubscribeResponse where
  success : Bool
  subscribed : List String
  already_subscribed : List String
  failed : List (String × String)
  total_instruments : Nat
  deriving DecidableEq, Repr

def subscribeStep (wsConnected : Bool)
    (wsSubscribe : String → Except String Unit)
    (st : List String × List String × List String × List (String × String))
    (instrument : String) :
    List String × List String × List String × List (String × String) :=
  let (own, sub, alr, fl) := st
  if instrument ∈ own then (own, sub, alr ++ [instrument], fl)
  else
    let own2 := own ++ [instrument]
    if wsConnected then
      match wsSubscribe instrument with
      | .ok _ => (own2, sub ++ [instrument], alr, fl)
      | .error e => (own2, sub, alr, fl ++ [(instrument, e)])
    else (own2, sub ++ [instrument], alr, fl)

def handle_subscribe (wsConnected : Bool)
    (wsSubscribe : String → Except String Unit)
    (owned : List String) (requested : List String) :
    Except String (SubscribeResponse × List String) :=
  if requested.isEmpty then .error "No instruments provided"
  else
    let r := requested.foldl (subscribeStep wsConnected wsSubscribe)
      (owned, [], [], [])
    .ok
      ({ success := r.2.2.2.isEmpty
         subscribed := r.2.1
         already_subscribed := r.2.2.1
         failed := r.2.2.2
         total_instruments := r.1.length }, r.1)

/-! ### Lifecycle manager sync diffing (`lifecycle_manager._sync_instruments`)

`active_set = set(names of active_instruments)`,
`tracked_set = set(tracked.keys())`,
`expired = tracked_set - active_set`, `new = active_set - tracked_set`;
one `instrument_expired` event is logged per expired name and one
`instrument_listed` event per active instrument whose name is in `new`.
Python sets are modelled as deduplicated lists (iteration order of a set
is unspecified; `dedup` fixes one order). -/

inductive LifecycleEvent where
  | instrument_expired (name : String)
  | instrument_listed (name : String)
  deriving DecidableEq, Repr

def activeNames (active : List InstInfo) : List String :=
  active.map (·.instrument_name)

def sync_expired (active : List InstInfo) (tracked : List String) :
    List String :=
  tracked.dedup.filter (fun x => x ∉ activeNames active)

def sync_listed (active : List InstInfo) (tracked : List String) :
    List String :=
  (activeNames active).dedup.filter (fun x => x ∉ tracked)

def sync_events (active : List InstInfo) (tracked : List String) :
    List LifecycleEvent :=
  (sync_expired active tracked).map .instrument_expired ++
    (active.filter
        (fun i => i.instrument_name ∈ sync_listed active tracked)).map
      (fun i => .instrument_listed i.instrument_name)

end DataDownloader

namespace DataDownloader

/-! ## Theorems -/

/-! ### Chunking lemmas -/

theorem chunkAux_flatten (k : Nat) (hk : 1 ≤ k) :
    ∀ (fuel : Nat) (l : List α), l.length ≤ fuel →
      (chunkAux k fuel l).flatten = l := by
  intro fuel
  induction fuel with
  | zero =>
    intro l hl
    have : l = [] := List.length_eq_zero.mp (Nat.le_zero.mp hl)
    simp [this, chunkAux]
  | succ n ih =>
    intro l hl
    cases l with
    | nil => simp [chunkAux]
    | cons a t =>
      have hdrop : (List.drop k (a :: t)).length ≤ n := by
        have := List.length_drop k (a :: t)
        simp only [this]
        have hlen : (a :: t).length ≤ n + 1 := hl
        simp only [List.length_cons] at hlen
        omega
      simp only [chunkAux, List.flatten_cons, ih _ hdrop,
        List.take_append_drop]

theorem chunkAux_length_le (k : Nat) :
    ∀ (fuel : Nat) (l : List α) (c : List α),
      c ∈ chunkAux k fuel l → c.length ≤ k := by
  intro fuel
  induction fuel with
  | zero => intro l c hc; simp [chunkAux] at hc
  | succ n ih =>
    intro l c hc
    cases l with
    | nil => simp [chunkAux] at hc
    | cons a t =>
      simp only [chunkAux, List.mem_cons] at hc
      rcases hc with h | h
      · subst h
        simp only [List.length_take]
        omega
      · exact ih _ _ h

theorem chunkList_flatten (k : Nat) (hk : 1 ≤ k) (l : List α) :
    (chunkList k l).flatten = l :=
  chunkAux_flatten k hk l.length l le_rfl

theorem chunkList_length_le (k : Nat) (l : List α) (c : List α)
    (hc : c ∈ chunkList k l) : c.length ≤ k :=
  chunkAux_length_le k l.length l c hc

/-! ### C6 — partitioner -/

/-- C6: for every instrument list `xs` and cap 250,
`partition_instruments xs 250` returns groups each of size at most 250
whose concatenation — preserving the stable input order — is exactly the
(names of the) instruments of `xs`, i.e. the groups are a disjoint union
of `xs`. -/
theorem partition_cap_and_union (xs : List InstInfo) :
    (∀ p ∈ partition_instruments xs 250, p.length ≤ 250) ∧
      (partition_instruments xs 250).flatten =
        xs.map (·.instrument_name) := by
  refine ⟨fun p hp => chunkList_length_le 250 _ p hp, ?_⟩
  exact chunkList_flatten 250 (by omega) _

theorem partition_cap_and_union_witness :
    (["A"] : List String).length ≤ 250 ∧
      (partition_instruments [{ instrument_name := "A" }] 250).flatten =
        List.map (·.instrument_name)
          [({ instrument_name := "A" } : InstInfo)] :=
  ⟨(partition_cap_and_union [{ instrument_name := "A" }]).1 ["A"]
      (by decide),
    (partition_cap_and_union [{ instrument_name := "A" }]).2⟩

/-! ### C7 — reconnect backoff -/

theorem reconnectRun_final_after_ok (d0 : Nat) (evs : List WSEvent) :
    (reconnectRun d0 (evs ++ [WSEvent.connectOk])).1 = 1 := by
  induction evs generalizing d0 with
  | nil => rfl
  | cons e es ih =>
    simp only [List.cons_append, reconnectRun]
    exact ih _

theorem min_two_pow_double (j : Nat) :
    min (min (2 ^ j) 60 * 2) 60 = min (2 ^ (j + 1)) 60 := by
  rcases Nat.le_total (2 ^ j) 60 with h | h
  · rw [Nat.min_eq_left h, pow_succ]
  · have h1 : min (2 ^ j) 60 = 60 := Nat.min_eq_right h
    have h2 : 60 ≤ 2 ^ (j + 1) := by
      calc (60 : Nat) ≤ 2 ^ j := h
      _ ≤ 2 ^ (j + 1) := Nat.pow_le_pow_right (by omega) (by omega)
    rw [h1, Nat.min_eq_right h2, Nat.min_eq_right (by omega)]

theorem reconnectRun_fail_delays_from (n : Nat) :
    ∀ j : Nat,
      (reconnectRun (min (2 ^ j) 60)
          (List.replicate n WSEvent.connectFail)).2 =
        (List.range n).map (fun k => min (2 ^ (j + k)) 60) := by
  induction n with
  | zero => intro j; rfl
  | succ n ih =>
    intro j
    have hstep := min_two_pow_double j
    simp only [List.replicate_succ, reconnectRun, reconnectStep,
      maxReconnectDelay, hstep, ih (j + 1), List.range_succ_eq_map,
      List.map_cons, List.map_map, List.singleton_append, Nat.add_zero]
    refine congrArg (List.cons _) ?_
    apply List.map_congr_left
    intro k _
    simp only [Function.comp_apply, Nat.succ_eq_add_one]
    have h : j + 1 + k = j + (k + 1) := by omega
    rw [h]

/-- C7: the reconnect delays used on consecutive failed connects are
1, 2, 4, 8, 16, 32, 60, 60, … seconds — i.e. the `k`-th failure sleeps
`min (2^k) 60` — and any successful connect resets the delay to 1 s
(so the same schedule restarts after it). -/
theorem reconnect_backoff_policy :
    (∀ (d0 : Nat) (evs : List WSEvent),
        (reconnectRun d0 (evs ++ [WSEvent.connectOk])).1 = 1) ∧
      (∀ n : Nat,
        (reconnectRun 1 (List.replicate n WSEvent.connectFail)).2 =
          (List.range n).map (fun k => min (2 ^ k) 60)) ∧
      (reconnectRun 1 (List.replicate 8 WSEvent.connectFail)).2 =
        [1, 2, 4, 8, 16, 32, 60, 60] := by
  refine ⟨reconnectRun_final_after_ok, fun n => ?_, by decide⟩
  have h := reconnectRun_fail_delays_from n 0
  simpa using h

/-! ### C2 — tick buffer -/

theorem foldl_dequeAppend (cap : Nat) :
    ∀ (qs init : List α), init.length + qs.length ≤ cap →
      qs.foldl (dequeAppend cap) init = init ++ qs := by
  intro qs
  induction qs with
  | nil => intro init _; simp
  | cons x t ih =>
    intro init h
    simp only [List.length_cons] at h
    have hd : dequeAppend cap init x = init ++ [x] := by
      have hz : init.length + 1 - cap = 0 := by omega
      simp [dequeAppend, hz]
    rw [List.foldl_cons, hd, ih (init ++ [x]) (by simp; omega)]
    simp

theorem foldl_applyOp_state (ops : List (BufferOp α)) :
    ∀ b : TickBuffer α,
      (ops.foldl TickBuffer.applyOp b).max_quotes = b.max_quotes ∧
      (ops.foldl TickBuffer.applyOp b).max_trades = b.max_trades ∧
      (ops.foldl TickBuffer.applyOp b).max_depth = b.max_depth ∧
      (ops.foldl TickBuffer.applyOp b).quotes =
        (opsQuotes ops).foldl (dequeAppend b.max_quotes) b.quotes ∧
      (ops.foldl TickBuffer.applyOp b).trades =
        (opsTrades ops).foldl (dequeAppend b.max_trades) b.trades ∧
      (ops.foldl TickBuffer.applyOp b).depth =
        (opsDepth ops).foldl (dequeAppend b.max_depth) b.depth := by
  induction ops with
  | nil => intro b; simp [opsQuotes, opsTrades, opsDepth]
  | cons op t ih =>
    intro b
    cases op with
    | quote x =>
      have h := ih (b.add_quote x)
      simpa [TickBuffer.applyOp, TickBuffer.add_quote, opsQuotes,
        opsTrades, opsDepth] using h
    | trade x =>
      have h := ih (b.add_trade x)
      simpa [TickBuffer.applyOp, TickBuffer.add_trade, opsQuotes,
        opsTrades, opsDepth] using h
    | depth x =>
      have h := ih (b.add_depth x)
      simpa [TickBuffer.applyOp, TickBuffer.add_depth, opsQuotes,
        opsTrades, opsDepth] using h

/-- C2 counterexample: the queues are `deque(maxlen=…)`, so with a quote
queue of capacity 1, adding quote 0 then quote 1 and draining returns
only `[1]` — quote 0 was silently discarded by `add_quote` at full
capacity, without any `clear_all`, refuting "the buffer itself never
drops an item when a queue is at full capacity". -/
theorem buffer_full_drop_counterexample :
    ((({ max_quotes := 1, max_trades := 5, max_depth := 5 } :
            TickBuffer Nat).add_quote 0).add_quote 1).get_and_clear.1.1 =
        [1] ∧
      (0 : Nat) ∉
        ((({ max_quotes := 1, max_trades := 5, max_depth := 5 } :
            TickBuffer Nat).add_quote 0).add_quote 1).get_and_clear.1.1 := by
  decide

/-- C2 amended: for every sequence of `add_quote`/`add_trade`/`add_depth`
calls after a drain, the next drain returns exactly the items added —
provided each queue receives at most its capacity of items since that
drain.  When a queue is already at full capacity, a further add evicts
the oldest buffered item (Python `deque(maxlen)` semantics), so the
buffer can drop items even without `clear_all`. -/
theorem buffer_drain_amended :
    (∀ (b : TickBuffer Nat) (ops : List (BufferOp Nat)),
        (opsQuotes ops).length ≤ b.max_quotes →
        (opsTrades ops).length ≤ b.max_trades →
        (opsDepth ops).length ≤ b.max_depth →
        (ops.foldl TickBuffer.applyOp b.get_and_clear.2).get_and_clear.1 =
          (opsQuotes ops, opsTrades ops, opsDepth ops)) ∧
      (∀ (b : TickBuffer Nat) (x : Nat),
        b.quotes.length = b.max_quotes → 1 ≤ b.max_quotes →
        (b.add_quote x).quotes = b.quotes.tail ++ [x]) := by
  constructor
  · intro b ops hq ht hd
    obtain ⟨hmq, hmt, hmd, hqs, hts, hds⟩ :=
      foldl_applyOp_state ops b.get_and_clear.2
    have hres :
        (ops.foldl TickBuffer.applyOp b.get_and_clear.2).get_and_clear.1 =
          ((ops.foldl TickBuffer.applyOp b.get_and_clear.2).quotes,
            (ops.foldl TickBuffer.applyOp b.get_and_clear.2).trades,
            (ops.foldl TickBuffer.applyOp b.get_and_clear.2).depth) := rfl
    have hb2 : b.get_and_clear.2.max_quotes = b.max_quotes := rfl
    have hb2t : b.get_and_clear.2.max_trades = b.max_trades := rfl
    have hb2d : b.get_and_clear.2.max_depth = b.max_depth := rfl
    have hq2 : b.get_and_clear.2.quotes = ([] : List Nat) := rfl
    have ht2 : b.get_and_clear.2.trades = ([] : List Nat) := rfl
    have hd2 : b.get_and_clear.2.depth = ([] : List Nat) := rfl
    rw [hres, hqs, hts, hds, hb2, hb2t, hb2d, hq2, ht2, hd2,
      foldl_dequeAppend _ _ [] (by simpa using hq),
      foldl_dequeAppend _ _ [] (by simpa using ht),
      foldl_dequeAppend _ _ [] (by simpa using hd)]
    simp
  · intro b x hfull hpos
    cases hq : b.quotes with
    | nil => rw [hq] at hfull; simp at hfull; omega
    | cons q0 qt =>
      simp only [TickBuffer.add_quote, dequeAppend, hq]
      have hlen : (q0 :: qt ++ [x]).length - b.max_quotes = 1 := by
        simp only [List.length_append, List.length_cons, List.length_nil]
        rw [hq] at hfull
        simp only [List.length_cons] at hfull
        omega
      rw [hlen]
      simp

theorem buffer_drain_amended_witness :
    ([7, 10] : List Nat).length ≤ 2 ∧ ([8] : List Nat).length ≤ 2 ∧
      ([9] : List Nat).length ≤ 2 ∧
      (([BufferOp.quote 7, BufferOp.trade 8, BufferOp.depth 9,
            BufferOp.quote 10]).foldl TickBuffer.applyOp
          (({ max_quotes := 2, max_trades := 2, max_depth := 2 } :
              TickBuffer Nat)).get_and_clear.2).get_and_clear.1 =
        (opsQuotes [BufferOp.quote 7, BufferOp.trade 8, BufferOp.depth 9,
            BufferOp.quote 10],
          opsTrades [BufferOp.quote 7, BufferOp.trade 8, BufferOp.depth 9,
            BufferOp.quote 10],
          opsDepth [BufferOp.quote 7, BufferOp.trade 8, BufferOp.depth 9,
            BufferOp.quote 10]) :=
  ⟨by decide, by decide, by decide,
    buffer_drain_amended.1 _ _ (by decide) (by decide) (by decide)⟩

/-! ### C5 — batch writer chunking and retry -/

/-- C5 counterexample: a sub-batch whose write fails on every attempt
performs backoff sleeps of 1 s and 2 s only — three attempts, two
retries — and then raises; the claimed 1 s, 2 s, 4 s schedule (three
retries) never happens. -/
theorem writer_backoff_counterexample :
    write_quote_batch (fun _ => false) 10000 =
        (BatchResult.raised, [1, 2]) ∧
      ([1, 2] : List Nat) ≠ [1, 2, 4] := by decide

/-- C5 amended: every `write_quotes` call splits its input into
sub-batches of at most 10 000 rows (their concatenation being the input);
each sub-batch is attempted at most 3 times — i.e. retried up to 2 times
— sleeping 1 s before the second attempt and 2 s before the third; after
the third failure the error propagates to the caller instead of being
swallowed. -/
theorem writer_chunking_and_retry :
    (∀ (qs : List Nat), ∀ c ∈ chunkList 10000 qs, c.length ≤ 10000) ∧
      (∀ qs : List Nat, (chunkList 10000 qs).flatten = qs) ∧
      (∀ (ok : Nat → Bool) (rows : Nat),
        write_quote_batch ok rows =
          if ok 0 then (BatchResult.written rows, [])
          else if ok 1 then (BatchResult.written rows, [1])
          else if ok 2 then (BatchResult.written rows, [1, 2])
          else (BatchResult.raised, [1, 2])) ∧
      (∀ qs : List Nat,
        write_quotes (fun _ _ => false) qs =
          if qs.isEmpty then Except.ok 0 else Except.error ()) := by
  refine ⟨fun qs c hc => chunkList_length_le _ _ _ hc,
    fun qs => chunkList_flatten _ (by omega) _, ?_, ?_⟩
  · intro ok rows
    have h3 : List.range 3 = [0, 1, 2] := rfl
    rw [write_quote_batch, h3]
    cases h0 : ok 0 <;> cases h1 : ok 1 <;> cases h2 : ok 2 <;>
      simp [writeBatchLoop, h0, h1, h2]
  · intro qs
    cases qs with
    | nil => rfl
    | cons a t =>
      simp [write_quotes, chunkList, chunkAux, writeQuotesLoop,
        write_quote_batch, writeBatchLoop]

theorem writer_chunking_and_retry_witness :
    ([5] : List Nat) ∈ chunkList 10000 [5] ∧
      (([5] : List Nat)).length ≤ 10000 :=
  ⟨by decide, writer_chunking_and_retry.1 [5] [5] (by decide)⟩

/-! ### C8 — lifecycle diffing -/

/-- C8: in a sync cycle, the instruments handled as expired are exactly
`tracked - active` and those handled as newly listed are exactly
`active - tracked`; with `tracked = {A, B, C}` and `active = {B, C, D}`
the cycle emits exactly one `expired` event for A and one `listed` event
for D, and no events for B or C. -/
theorem lifecycle_sync_diff :
    (∀ (active : List InstInfo) (tracked : List String) (x : String),
        x ∈ sync_expired active tracked ↔
          x ∈ tracked ∧ x ∉ activeNames active) ∧
      (∀ (active : List InstInfo) (tracked : List String) (x : String),
        x ∈ sync_listed active tracked ↔
          x ∈ activeNames active ∧ x ∉ tracked) ∧
      sync_events
          [{ instrument_name := "B" }, { instrument_name := "C" },
            { instrument_name := "D" }] ["A", "B", "C"] =
        [LifecycleEvent.instrument_expired "A",
          LifecycleEvent.instrument_listed "D"] := by
  refine ⟨?_, ?_, by decide⟩
  · intro active tracked x
    simp [sync_expired, List.mem_filter, List.mem_dedup]
  · intro active tracked x
    simp [sync_listed, List.mem_filter, List.mem_dedup]

/-! ### C9 / C10 — control API subscribe -/

/-- C9: subscribing an instrument already in the collector's owned set
reports it under `already_subscribed` (not `subscribed` or `failed`) and
leaves the owned instrument list — hence its size — unchanged, for any
WebSocket connectivity and any subscribe outcome function. -/
theorem subscribe_idempotent (wsConnected : Bool)
    (wsSubscribe : String → Except String Unit)
    (owned : List String) (instrument : String)
    (h : instrument ∈ owned) :
    handle_subscribe wsConnected wsSubscribe owned [instrument] =
      Except.ok
        ({ success := true, subscribed := [],
           already_subscribed := [instrument], failed := [],
           total_instruments := owned.length }, owned) := by
  simp [handle_subscribe, subscribeStep, h]

theorem subscribe_idempotent_witness :
    handle_subscribe true (fun _ => Except.ok ()) ["X"] ["X"] =
      Except.ok
        ({ success := true, subscribed := [],
           already_subscribed := ["X"], failed := [],
           total_instruments := 1 }, ["X"]) :=
  subscribe_idempotent true (fun _ => Except.ok ()) ["X"] "X" (by decide)

/-- C10: an instrument not yet owned is appended to the owned list before
the WebSocket subscription is attempted; if that subscription raises, the
instrument is reported under `failed` but remains in the owned list, which
grows by one — the handler is not atomic on error. -/
theorem subscribe_failure_keeps_instrument
    (wsSubscribe : String → Except String Unit)
    (owned : List String) (instrument : String) (err : String)
    (h : instrument ∉ owned)
    (herr : wsSubscribe instrument = Except.error err) :
    handle_subscribe true wsSubscribe owned [instrument] =
      Except.ok
        ({ success := false, subscribed := [], already_subscribed := [],
           failed := [(instrument, err)],
           total_instruments := owned.length + 1 },
          owned ++ [instrument]) := by
  simp [handle_subscribe, subscribeStep, h, herr]

theorem subscribe_failure_keeps_instrument_witness :
    handle_subscribe true (fun _ => Except.error "boom") ["A"] ["B"] =
      Except.ok
        ({ success := false, subscribed := [], already_subscribed := [],
           failed := [("B", "boom")], total_instruments := 2 },
          ["A", "B"]) :=
  subscribe_failure_keeps_instrument (fun _ => Except.error "boom") ["A"]
    "B" "boom" (by decide) rfl

/-! ### C1 — quote upsert semantics -/

/-- C1 counterexample: the ETH-only `TickWriter._write_quote_batch` uses
`ON CONFLICT (timestamp, instrument) DO NOTHING`, so after writing
`{bid=1, ask=2, mark=NULL}` and then `{bid=NULL, ask=NULL, mark=5}` for
the same key, the stored row still has `mark = NULL`, not 5 — refuting
the COALESCE claim for that cited batch writer. -/
theorem single_writer_do_nothing_counterexample :
    lookupQuote
        (singleWriterQuoteBatch []
          [(⟨1699999200, "ETH-10NOV25-3100-C"⟩,
              { best_bid_price := some 1, best_ask_price := some 2 }),
            (⟨1699999200, "ETH-10NOV25-3100-C"⟩, { mark_price := some 5 })])
        ⟨1699999200, "ETH-10NOV25-3100-C"⟩ =
      some { best_bid_price := some 1, best_ask_price := some 2 } ∧
      ({ best_bid_price := some 1, best_ask_price := some 2 } :
          QuoteVals).mark_price = none ∧
      (none : Option ℚ) ≠ some 5 := by decide

/-- C1 amended: the multi-currency writer's upsert
(`MultiCurrencyTickWriter._write_quote_batch`) sets each updatable column
to `COALESCE(incoming, existing)` — an incoming null never overwrites a
stored value, an incoming value always wins — so its example result is
`{bid=1, ask=2, mark=5}`; the ETH-only `TickWriter` instead uses
`ON CONFLICT DO NOTHING`, keeping the existing row untouched on
conflict. -/
theorem multi_writer_upsert_coalesce :
    (∀ (t : QuoteTable) (k : QuoteKey) (v : QuoteVals),
        lookupQuote (upsertQuoteCoalesce t k v) k =
          some
            (match lookupQuote t k with
              | some existing => coalesceRow v existing
              | none => v)) ∧
      (∀ e : Option ℚ, coalesce none e = e) ∧
      (∀ (x : ℚ) (e : Option ℚ), coalesce (some x) e = some x) ∧
      (∀ (t : QuoteTable) (k : QuoteKey) (v : QuoteVals),
        lookupQuote (upsertQuoteDoNothing t k v) k =
          some ((lookupQuote t k).getD v)) ∧
      lookupQuote
          (multiWriterQuoteBatch []
            [(⟨1699999200, "ETH-10NOV25-3100-C"⟩,
                { best_bid_price := some 1, best_ask_price := some 2 }),
              (⟨1699999200, "ETH-10NOV25-3100-C"⟩,
                { mark_price := some 5 })])
          ⟨1699999200, "ETH-10NOV25-3100-C"⟩ =
        some { best_bid_price := some 1, best_ask_price := some 2,
               mark_price := some 5 } := by
  refine ⟨?_, fun e => rfl, fun x e => rfl, ?_, by decide⟩
  · intro t k v
    induction t with
    | nil => simp [upsertQuoteCoalesce, lookupQuote]
    | cons kv rest ih =>
      obtain ⟨k', v'⟩ := kv
      by_cases hk : k = k'
      · simp [upsertQuoteCoalesce, lookupQuote, hk]
      · simp [upsertQuoteCoalesce, lookupQuote, hk, ih]
  · intro t k v
    induction t with
    | nil => simp [upsertQuoteDoNothing, lookupQuote]
    | cons kv rest ih =>
      obtain ⟨k', v'⟩ := kv
      by_cases hk : k = k'
      · simp [upsertQuoteDoNothing, lookupQuote, hk]
      · simp [upsertQuoteDoNothing, lookupQuote, hk, ih]

/-! ### C3 / C4 — expiry oracle -/

theorem takeWhile_append_cons (p : α → Bool) (l1 : List α) (c : α)
    (l2 : List α) (h1 : ∀ x ∈ l1, p x = true) (hc : p c = false) :
    (l1 ++ c :: l2).takeWhile p = l1 := by
  induction l1 with
  | nil => simp [List.takeWhile_cons, hc]
  | cons a t ih =>
    have ha : p a = true := h1 a (by simp)
    simp only [List.cons_append, List.takeWhile_cons, ha, if_true]
    rw [ih (fun x hx => h1 x (List.mem_cons_of_mem a hx))]

theorem monthNum_shape (mon : List Char) (m : Nat)
    (h : monthNum mon = some m) :
    mon.length = 3 ∧ mon.all isUpperAZ = true ∧
      mon.all (fun c => !c.isDigit) = true := by
  by_cases h1 : mon = ['J', 'A', 'N']
  · subst h1; decide
  by_cases h2 : mon = ['F', 'E', 'B']
  · subst h2; decide
  by_cases h3 : mon = ['M', 'A', 'R']
  · subst h3; decide
  by_cases h4 : mon = ['A', 'P', 'R']
  · subst h4; decide
  by_cases h5 : mon = ['M', 'A', 'Y']
  · subst h5; decide
  by_cases h6 : mon = ['J', 'U', 'N']
  · subst h6; decide
  by_cases h7 : mon = ['J', 'U', 'L']
  · subst h7; decide
  by_cases h8 : mon = ['A', 'U', 'G']
  · subst h8; decide
  by_cases h9 : mon = ['S', 'E', 'P']
  · subst h9; decide
  by_cases h10 : mon = ['O', 'C', 'T']
  · subst h10; decide
  by_cases h11 : mon = ['N', 'O', 'V']
  · subst h11; decide
  by_cases h12 : mon = ['D', 'E', 'C']
  · subst h12; decide
  exfalso
  unfold monthNum at h
  rw [if_neg h1, if_neg h2, if_neg h3, if_neg h4, if_neg h5, if_neg h6,
    if_neg h7, if_neg h8, if_neg h9, if_neg h10, if_neg h11,
    if_neg h12] at h
  exact Option.noConfusion h

theorem parseExpiryChars_ccy (ccy w : List Char) (hccy : ccy ≠ [])
    (hU : ∀ c ∈ ccy, isUpperAZ c = true) :
    parseExpiryChars (ccy ++ '-' :: w) = parseAfterDash w := by
  have hemp : ccy.isEmpty = false := by
    cases ccy with
    | nil => exact absurd rfl hccy
    | cons a t => rfl
  simp only [parseExpiryChars,
    takeWhile_append_cons isUpperAZ ccy '-' w hU (by decide), hemp,
    Bool.false_eq_true, if_false, List.drop_left]

theorem parseAfterDash_digits (ds : List Char) (c1 : Char) (z : List Char)
    (hds0 : ds ≠ []) (hds2 : ds.length ≤ 2)
    (hdsD : ∀ c ∈ ds, c.isDigit = true) (hc1 : c1.isDigit = false) :
    parseAfterDash (ds ++ c1 :: z) = parseMonYY ds (c1 :: z) := by
  have hlen0 : ¬ds.length = 0 := by
    intro h
    exact hds0 (List.length_eq_zero.mp h)
  simp only [parseAfterDash,
    takeWhile_append_cons Char.isDigit ds c1 z hdsD hc1, List.drop_left,
    hlen0, decide_False, Bool.false_or, decide_eq_true_eq]
  rw [if_neg (by omega)]

theorem parseMonYY_option (ds mon ys rest : List Char) (m : Nat)
    (hmon : monthNum mon = some m) (hys : ys.length = 2)
    (hysD : ∀ c ∈ ys, c.isDigit = true) :
    parseMonYY ds (mon ++ (ys ++ '-' :: rest)) =
      mkExpiry (digitsVal ds) m (digitsVal ys) := by
  obtain ⟨h3, hU, _⟩ := monthNum_shape mon m hmon
  have ht3 : List.take 3 (mon ++ (ys ++ '-' :: rest)) = mon :=
    List.take_left' h3
  have hd3 : List.drop 3 (mon ++ (ys ++ '-' :: rest)) =
      ys ++ '-' :: rest := List.drop_left' h3
  have ht2 : List.take 2 (ys ++ '-' :: rest) = ys := List.take_left' hys
  have hd2 : List.drop 2 (ys ++ '-' :: rest) = '-' :: rest :=
    List.drop_left' hys
  simp only [parseMonYY]
  rw [ht3, hd3, ht2, hd2]
  simp [h3, hU, hys, List.all_eq_true.mpr hysD, hmon]

theorem parseMonYY_futures (ds mon ys : List Char) (m : Nat)
    (hmon : monthNum mon = some m) (hys : ys.length = 2) :
    parseMonYY ds (mon ++ ys) = none := by
  obtain ⟨h3, _, _⟩ := monthNum_shape mon m hmon
  have hdrop : ((mon ++ ys).drop 3).drop 2 = [] := by
    rw [List.drop_drop]
    refine List.drop_eq_nil_of_le ?_
    simp [h3, hys]
  simp only [parseMonYY]
  split
  · rw [hdrop]
  · rfl

/-- C3 counterexample: the futures-format name `ETH-10NOV25` fails to
parse — the regex `[A-Z]+-(\d{1,2}[A-Z]{3}\d{2})-` demands a hyphen after
the date — contradicting the claim that the oracle parses both name
shapes; the options-format name `ETH-10NOV25-3100-C` does parse, to
08:00 UTC on 2025-11-10. -/
theorem futures_name_parse_counterexample :
    parse_expiry_from_instrument "ETH-10NOV25" = none ∧
      parse_expiry_from_instrument "ETH-10NOV25-3100-C" =
        some (toEpoch 2025 11 10 8 0 0) := by decide

/-- C3 amended: the expiry oracle parses the options name format
`CCY-DDMMMYY-…` — precisely, any name whose date field is followed by a
further hyphen — and for every well-formed such name extracts the
settlement moment 08:00 UTC on the named date; a futures-format name
`CCY-DDMMMYY`, with nothing after the date, fails to parse and yields
`none`. -/
theorem expiry_parser_amended
    (ccy ds mon ys rest : List Char) (m : Nat)
    (hccy : ccy ≠ []) (hccyU : ∀ c ∈ ccy, isUpperAZ c = true)
    (hds0 : ds ≠ []) (hds2 : ds.length ≤ 2)
    (hdsD : ∀ c ∈ ds, c.isDigit = true)
    (hmon : monthNum mon = some m)
    (hys : ys.length = 2) (hysD : ∀ c ∈ ys, c.isDigit = true)
    (hday1 : 1 ≤ digitsVal ds)
    (hday2 : digitsVal ds ≤ daysInMonth (yearOfYY (digitsVal ys)) m) :
    parseExpiryChars (ccy ++ '-' :: (ds ++ (mon ++ (ys ++ '-' :: rest)))) =
        some (toEpoch (yearOfYY (digitsVal ys)) m (digitsVal ds) 8 0 0) ∧
      parseExpiryChars (ccy ++ '-' :: (ds ++ (mon ++ ys))) = none := by
  obtain ⟨h3, hU, hND⟩ := monthNum_shape mon m hmon
  have hmk : mkExpiry (digitsVal ds) m (digitsVal ys) =
      some (toEpoch (yearOfYY (digitsVal ys)) m (digitsVal ds) 8 0 0) := by
    simp [mkExpiry, hday1, hday2]
  cases mon with
  | nil => simp at h3
  | cons c1 mt =>
    have hc1 : c1.isDigit = false := by
      have := List.all_eq_true.mp hND c1 (List.mem_cons_self c1 mt)
      simpa using this
    constructor
    · exact (parseExpiryChars_ccy ccy _ hccy hccyU).trans
        ((parseAfterDash_digits ds c1 _ hds0 hds2 hdsD hc1).trans
          ((parseMonYY_option ds (c1 :: mt) ys rest m hmon hys
            hysD).trans hmk))
    · exact (parseExpiryChars_ccy ccy _ hccy hccyU).trans
        ((parseAfterDash_digits ds c1 _ hds0 hds2 hdsD hc1).trans
          (parseMonYY_futures ds (c1 :: mt) ys m hmon hys))

theorem expiry_parser_amended_witness :
    parseExpiryChars
        (['E', 'T', 'H'] ++ '-' ::
          (['1', '0'] ++ ['N', 'O', 'V'] ++ ['2', '5'] ++ '-' ::
            ['3', '1', '0', '0', '-', 'C'])) =
        some (toEpoch (yearOfYY (digitsVal ['2', '5'])) 11
          (digitsVal ['1', '0']) 8 0 0) ∧
      parseExpiryChars
          (['E', 'T', 'H'] ++ '-' ::
            (['1', '0'] ++ ['N', 'O', 'V'] ++ ['2', '5'])) = none :=
  expiry_parser_amended ['E', 'T', 'H'] ['1', '0'] ['N', 'O', 'V']
    ['2', '5'] ['3', '1', '0', '0', '-', 'C'] 11 (by decide) (by decide)
    (by decide) (by decide) (by decide) (by decide) (by decide)
    (by decide) (by decide) (by decide)

/-- C4: `is_instrument_expired` returns false whenever the name fails to
parse; for a parseable name it returns true iff now ≥ settlement + buffer
(settlement being what the parser extracts, the buffer in minutes); with
the 5-minute buffer, for ETH-10NOV25-3100-C it returns true at
2025-11-10T08:05:00Z and false at 2025-11-10T08:04:59Z. -/
theorem is_expired_characterization :
    (∀ (s : String) (b now : Nat),
        parse_expiry_from_instrument s = none →
        is_instrument_expired s b now = false) ∧
      (∀ (s : String) (b now e : Nat),
        parse_expiry_from_instrument s = some e →
        (is_instrument_expired s b now = true ↔ e + b * 60 ≤ now)) ∧
      is_instrument_expired "ETH-10NOV25-3100-C" 5
          (toEpoch 2025 11 10 8 5 0) = true ∧
      is_instrument_expired "ETH-10NOV25-3100-C" 5
          (toEpoch 2025 11 10 8 4 59) = false := by
  refine ⟨?_, ?_, by decide, by decide⟩
  · intro s b now h
    simp [is_instrument_expired, h]
  · intro s b now e h
    simp [is_instrument_expired, h]

theorem is_expired_characterization_witness :
    is_instrument_expired "ETH-10NOV25" 5 0 = false ∧
      (is_instrument_expired "ETH-10NOV25-3100-C" 5
          (toEpoch 2025 11 10 8 5 0) = true ↔
        toEpoch 2025 11 10 8 0 0 + 5 * 60 ≤ toEpoch 2025 11 10 8 5 0) :=
  ⟨is_expired_characterization.1 "ETH-10NOV25" 5 0 (by decide),
    is_expired_characterization.2.1 "ETH-10NOV25-3100-C" 5
      (toEpoch 2025 11 10 8 5 0) (toEpoch 2025 11 10 8 0 0) (by decide)⟩

end DataDownloader
